import Mathlib

/-!
Verification of the conan-doxygen orchestrator (src/src/main.rs).

The development shallowly embeds the pure computations of the program
(string parsing in `inspect`, line selection and JSON extraction in
`gather_sources`, output-path resolution in `main`) as executable Lean
functions, and models `main`'s control flow as a function from an
environment of external-process outcomes to an event trace plus a result.
-/

namespace ConanDoxygen

/-- Character constants written via code points so that source text stays
plain: single quote (39), double quote (34), backslash (92). -/
def squote : Char := Char.ofNat 39

def dquote : Char := Char.ofNat 34

def bslash : Char := Char.ofNat 92

/-- Rust `char::is_whitespace`: the Unicode White_Space code points. -/
def rustIsWhitespace (c : Char) : Bool :=
  c.toNat = 0x09 || c.toNat = 0x0A || c.toNat = 0x0B || c.toNat = 0x0C ||
  c.toNat = 0x0D || c.toNat = 0x20 || c.toNat = 0x85 || c.toNat = 0xA0 ||
  c.toNat = 0x1680 || (0x2000 ≤ c.toNat && c.toNat ≤ 0x200A) ||
  c.toNat = 0x2028 || c.toNat = 0x2029 || c.toNat = 0x202F ||
  c.toNat = 0x205F || c.toNat = 0x3000

/-- Rust `str::split(sep)` with a char separator: between-separator pieces,
always at least one piece (the empty string splits to one empty piece). -/
def splitOnChar (sep : Char) : List Char → List (List Char)
  | [] => [[]]
  | c :: rest =>
    let r := splitOnChar sep rest
    if c = sep then [] :: r
    else
      match r with
      | [] => [[c]]
      | h :: t => (c :: h) :: t

/-- Rust `str::trim_start_matches(c)`: drop every leading occurrence. -/
def rustTrimStartMatches (c : Char) (l : List Char) : List Char :=
  l.dropWhile (fun x => x == c)

/-- Rust `str::trim_end_matches(c)`: drop every trailing occurrence. -/
def rustTrimEndMatches (c : Char) (l : List Char) : List Char :=
  (l.reverse.dropWhile (fun x => x == c)).reverse

/-- Rust `str::trim`: drop Unicode whitespace from both ends. -/
def rustTrim (l : List Char) : List Char :=
  ((l.dropWhile rustIsWhitespace).reverse.dropWhile rustIsWhitespace).reverse

/-- The `requires` parsing of `inspect` (main.rs lines 111-116):
split on commas, per piece strip leading occurrences of char 91, then
trailing occurrences of char 93, then trim whitespace, then remove every
single quote (Rust `replace` removes all occurrences). -/
def parseRequires (s : String) : List String :=
  (splitOnChar ',' s.data).map (fun piece =>
    String.mk
      ((rustTrim (rustTrimEndMatches ']' (rustTrimStartMatches '[' piece))).filter
        (fun c => !(c == squote))))

/-- The `inspect` pure core (main.rs lines 93-118): name and version are the
raw decoded bytes, requires goes through `parseRequires`. -/
def inspect (nameRaw versionRaw requiresRaw : String) :
    String × String × List String :=
  (nameRaw, versionRaw, parseRequires requiresRaw)

/-- JSON values, modelling `serde_json::Value` on the fragment the program
consumes (numbers restricted to integers; objects keep fields in parse
order). -/
inductive Json where
  | null : Json
  | bool : Bool → Json
  | num : Int → Json
  | str : String → Json
  | arr : List Json → Json
  | obj : List (String × Json) → Json

/-- JSON insignificant whitespace (space, tab, line feed, carriage return). -/
def isJsonWs (c : Char) : Bool :=
  c = ' ' || c.toNat = 0x09 || c.toNat = 0x0A || c.toNat = 0x0D

def skipWs (cs : List Char) : List Char := cs.dropWhile isJsonWs

/-- One escape character after a backslash inside a JSON string. -/
def escChar (e : Char) : Option Char :=
  if e = dquote then some dquote
  else if e = bslash then some bslash
  else if e = '/' then some '/'
  else if e = 'n' then some (Char.ofNat 0x0A)
  else if e = 't' then some (Char.ofNat 0x09)
  else if e = 'r' then some (Char.ofNat 0x0D)
  else none

/-- Parse the body of a JSON string after its opening double quote,
returning the decoded characters and the rest of the input. -/
def parseStringRest : List Char → Option (List Char × List Char)
  | [] => none
  | c :: rest =>
    if c = dquote then some ([], rest)
    else if c = bslash then
      match rest with
      | [] => none
      | e :: rest2 =>
        match escChar e with
        | none => none
        | some ec => (parseStringRest rest2).map (fun p => (ec :: p.1, p.2))
    else (parseStringRest rest).map (fun p => (c :: p.1, p.2))

/-- Digits of a nonnegative decimal number at the head of the input. -/
def parseDigitsNum (cs : List Char) : Option (Nat × List Char) :=
  let ds := cs.takeWhile Char.isDigit
  if ds.isEmpty then none
  else some (ds.foldl (fun n c => n * 10 + (c.toNat - 48)) 0,
             cs.dropWhile Char.isDigit)

mutual

/-- Fuel-indexed recursive-descent parse of one JSON value, modelling
`serde_json` on the fragment the manager's report uses. -/
def parseValue : Nat → List Char → Option (Json × List Char)
  | 0, _ => none
  | fuel + 1, cs =>
    match skipWs cs with
    | 'n' :: 'u' :: 'l' :: 'l' :: rest => some (.null, rest)
    | 't' :: 'r' :: 'u' :: 'e' :: rest => some (.bool true, rest)
    | 'f' :: 'a' :: 'l' :: 's' :: 'e' :: rest => some (.bool false, rest)
    | '[' :: rest =>
      match skipWs rest with
      | ']' :: rest2 => some (.arr [], rest2)
      | _ => (parseArrayItems fuel rest).map (fun p => (.arr p.1, p.2))
    | '-' :: rest =>
      (parseDigitsNum rest).map (fun p => (.num (-(p.1 : Int)), p.2))
    | c :: rest =>
      if c = dquote then
        (parseStringRest rest).map (fun p => (.str (String.mk p.1), p.2))
      else if c.toNat = 0x7b then
        match skipWs rest with
        | c2 :: rest2 =>
          if c2.toNat = 0x7d then some (.obj [], rest2)
          else (parseObjectItems fuel rest).map (fun p => (.obj p.1, p.2))
        | [] => none
      else if c.isDigit then
        (parseDigitsNum (c :: rest)).map (fun p => (.num (p.1 : Int), p.2))
      else none
    | [] => none

/-- Comma-separated JSON values up to a closing bracket (nonempty case). -/
def parseArrayItems : Nat → List Char → Option (List Json × List Char)
  | 0, _ => none
  | fuel + 1, cs =>
    match parseValue fuel cs with
    | none => none
    | some (v, rest) =>
      match skipWs rest with
      | ',' :: rest2 =>
        (parseArrayItems fuel rest2).map (fun p => (v :: p.1, p.2))
      | ']' :: rest2 => some ([v], rest2)
      | _ => none

/-- Comma-separated JSON object members up to a closing brace
(nonempty case). -/
def parseObjectItems : Nat → List Char →
    Option (List (String × Json) × List Char)
  | 0, _ => none
  | fuel + 1, cs =>
    match skipWs cs with
    | c :: rest =>
      if c = dquote then
        match parseStringRest rest with
        | none => none
        | some (key, rest2) =>
          match skipWs rest2 with
          | ':' :: rest3 =>
            match parseValue fuel rest3 with
            | none => none
            | some (v, rest4) =>
              match skipWs rest4 with
              | ',' :: rest5 =>
                (parseObjectItems fuel rest5).map
                  (fun p => ((String.mk key, v) :: p.1, p.2))
              | c5 :: rest5 =>
                if c5.toNat = 0x7d then some ([(String.mk key, v)], rest5)
                else none
              | [] => none
          | _ => none
      else none
    | [] => none

end

/-- Model of `serde_json::from_str::<Vec<Value>>`: a whole-input parse that
must yield a top-level array with only whitespace after it. -/
def from_str_vec (s : String) : Option (List Json) :=
  match parseValue (s.length + 2) s.data with
  | some (Json.arr xs, rest) => if skipWs rest = [] then some xs else none
  | _ => none

/-- Model of serde's `Value::get(key)` on the parsed values: only objects
have fields; a duplicated key resolves to its last occurrence, as in
serde's map. -/
def jget (v : Json) (key : String) : Option Json :=
  match v with
  | .obj kvs => ((kvs.filter (fun kv => kv.1 == key)).getLast?).map (·.2)
  | _ => none

/-- Model of `Value::as_str`. -/
def asStr : Json → Option String
  | .str s => some s
  | _ => none

/-- The extraction loop of `gather_sources` (main.rs lines 64-74): keep, in
order, the string values of the `package_folder` field of each element. -/
def extractFolders (arr : List Json) : List String :=
  arr.filterMap (fun obj => (jget obj "package_folder").bind asStr)

/-- The pure core of `gather_sources` (main.rs lines 60-80): split the
decoded output on line feeds, take the LAST piece (which is empty when the
output ends in a newline), parse it as a JSON array, extract the
`package_folder` fields and append `<reference>/sources`. -/
def gather_sources_pure (infoOutput : String) (srcPkg : String) :
    Except String (List String) :=
  match (splitOnChar (Char.ofNat 0x0A) infoOutput.data).getLast? with
  | none => .error "Failed to get package paths"
  | some lastPiece =>
    match from_str_vec (String.mk lastPiece) with
    | none => .error "serde_json parse error"
    | some arr => .ok (extractFolders arr ++ [srcPkg ++ "/sources"])

/-- Modelled from the spec: the claim's selection rule, the last NON-EMPTY
line of the split output; stated for comparison with the code's
last-piece rule in `gather_sources_pure`. -/
def specLastNonEmptyLine (s : String) : Option String :=
  (((splitOnChar (Char.ofNat 0x0A) s.data).filter
      (fun l => !l.isEmpty)).getLast?).map String.mk

/-- The `conan_install` stage (main.rs lines 83-91): `status()?` propagates
only a launch failure; any exit code of the launched installer, zero or
not, yields success, and the exit code itself is discarded. -/
def conan_install (launch : Except String Int) : Except String Unit :=
  match launch with
  | .error e => .error e
  | .ok _exitCode => .ok ()

/-- The output-resolution stage (main.rs lines 173-183). The `--out`
argument is `none` when absent, `some none` when present but not valid
UTF-8 (its `to_str` fails), and `some (some o)` when it converts to the
string `o`; the default path is built from the reference, name and
version, and converts to text unchanged. -/
def resolve_output (outArg : Option (Option String))
    (srcPkg name version : String) : Except String String :=
  match outArg with
  | none => .ok (srcPkg ++ "/build/docs/" ++ name ++ "_" ++ version)
  | some none => .error "Failed to convert PathBuf to str"
  | some (some o) => .ok o

/-- Outcomes of the external world consumed by `main`: each field abstracts
one effectful boundary (subprocess launch and output decoding, file
system, template rendering, path canonicalization, viewer opening). -/
structure Env where
  src : Option String
  outArg : Option (Option String)
  openFlag : Bool
  inspectRaw : Except String (String × String × String)
  installLaunch : Except String Int
  infoOutput : Except String String
  renderRes : Except String String
  doxygenSuccess : Bool
  canonicalize : String → Except String String
  openRes : Except String Unit

/-- Observable events of one run of `main`, in emission order. -/
inductive Event where
  | ranInspect : Event
  | ranInstall : Event
  | ranLocate : Event
  | ranResolve : Event
  | ranRender : Event
  | ranGenerate : Event
  | canonicalized : String → Event
  | printedSuccess : String → Event
  | openedViewer : String → Event
  | openWarn : String → String → Event
deriving DecidableEq

/-- The control flow of `main` (main.rs lines 149-230) over an environment
of external outcomes: the event trace emitted and the final result. Each
`?` in the source is a match that stops the run on the error branch; the
non-UTF-8 `src` path skips the whole body and returns success. -/
def runMain (env : Env) : List Event × Except String Unit :=
  match env.src with
  | none => ([], .ok ())
  | some srcPkg =>
    match env.inspectRaw with
    | .error e => ([.ranInspect], .error e)
    | .ok (nameRaw, versionRaw, requiresRaw) =>
      let nv := inspect nameRaw versionRaw requiresRaw
      match conan_install env.installLaunch with
      | .error e => ([.ranInspect, .ranInstall], .error e)
      | .ok _ =>
        match env.infoOutput.bind (fun out => gather_sources_pure out srcPkg) with
        | .error e => ([.ranInspect, .ranInstall, .ranLocate], .error e)
        | .ok _source_folders =>
          match resolve_output env.outArg srcPkg nv.1 nv.2.1 with
          | .error e =>
            ([.ranInspect, .ranInstall, .ranLocate, .ranResolve], .error e)
          | .ok output_str =>
            match env.renderRes with
            | .error e =>
              ([.ranInspect, .ranInstall, .ranLocate, .ranResolve,
                .ranRender], .error e)
            | .ok _doxy_file_out =>
              let evs := [Event.ranInspect, .ranInstall, .ranLocate,
                          .ranResolve, .ranRender, .ranGenerate]
              if env.doxygenSuccess then
                let entry := output_str ++ "/html/index.html"
                match env.canonicalize entry with
                | .error e => (evs ++ [.canonicalized entry], .error e)
                | .ok html =>
                  let evs2 := evs ++ [Event.canonicalized entry,
                                      .printedSuccess html]
                  if env.openFlag then
                    match env.openRes with
                    | .ok _ => (evs2 ++ [.openedViewer html], .ok ())
                    | .error err => (evs2 ++ [.openWarn html err], .ok ())
                  else (evs2, .ok ())
              else
                (evs, .error
                  "Failed to generate docs. Please ensure doxygen is available in PATH.")

/-- Whether an `Except` is a success. -/
def exOk {α : Type} : Except String α → Bool
  | .ok _ => true
  | .error _ => false

/-- The six pipeline stages in their source order. -/
def stageFullOrder : List Event :=
  [.ranInspect, .ranInstall, .ranLocate, .ranResolve, .ranRender,
   .ranGenerate]

def isStageEvent : Event → Bool
  | .ranInspect => true
  | .ranInstall => true
  | .ranLocate => true
  | .ranResolve => true
  | .ranRender => true
  | .ranGenerate => true
  | _ => false

/-- The stage events of a trace, in trace order. -/
def stageTrace (evs : List Event) : List Event := evs.filter isStageEvent

/-- Whether the trace records an attempt to open the viewer (successful or
warned). -/
def openAttempted (evs : List Event) : Bool :=
  evs.any (fun e =>
    match e with
    | .openedViewer _ => true
    | .openWarn _ _ => true
    | _ => false)

/-- Success of the locate stage, as the orchestrator sees it. -/
def locateOk (env : Env) (srcPkg : String) : Bool :=
  exOk (env.infoOutput.bind (fun out => gather_sources_pure out srcPkg))

/-- Success of the resolve-output stage: it fails only when `--out` is
present but not valid UTF-8. -/
def resolveOk (env : Env) : Bool :=
  match env.outArg with
  | some none => false
  | _ => true

/-- Index (1 to 6) of the first failing stage, or 6 when every stage up to
the generator runs. -/
def stageCount (env : Env) (srcPkg : String) : Nat :=
  if exOk env.inspectRaw = false then 1
  else if exOk env.installLaunch = false then 2
  else if locateOk env srcPkg = false then 3
  else if resolveOk env = false then 4
  else if exOk env.renderRes = false then 5
  else 6

/-- A convenient all-successful environment used to instantiate theorems
with hypotheses at concrete inputs. -/
def envBase : Env where
  src := some "pkg"
  outArg := none
  openFlag := false
  inspectRaw := .ok ("foo", "1.2", "[]")
  installLaunch := .ok 0
  infoOutput := .ok "[]"
  renderRes := .ok "pkg/build/docs/foo_1.2/.doxy/DoxyFile"
  doxygenSuccess := true
  canonicalize := fun p => .ok p
  openRes := .ok ()

/-- The last piece of the newline split, as selected by `gather_sources`. -/
def lastPiece (s : String) : String :=
  String.mk (((splitOnChar (Char.ofNat 0x0A) s.data).getLast?).getD [])

theorem splitOnChar_ne_nil (sep : Char) :
    ∀ l : List Char, splitOnChar sep l ≠ []
  | [] => by simp [splitOnChar]
  | c :: rest => by
    simp only [splitOnChar]
    split
    · simp
    · split <;> simp

theorem splitOnChar_append_sep (sep : Char) :
    ∀ l : List Char, splitOnChar sep (l ++ [sep]) = splitOnChar sep l ++ [[]]
  | [] => by simp [splitOnChar]
  | c :: rest => by
    have ih := splitOnChar_append_sep sep rest
    have hne := splitOnChar_ne_nil sep rest
    simp only [List.cons_append, splitOnChar, List.append_eq]
    by_cases h : c = sep
    · simp only [if_pos h, ih, List.cons_append]
    · simp only [if_neg h]
      rcases hr : splitOnChar sep rest with _ | ⟨hd, tl⟩
      · exact absurd hr hne
      · rw [ih, hr]
        simp

/-- C2 counterexample: the claim says the raw text of two empty brackets
parses to the empty sequence, but Rust's comma split always yields at
least one piece, so the parse yields one empty string instead. -/
theorem requires_empty_counterexample :
    parseRequires "[]" = [""] ∧ parseRequires "[]" ≠ ([] : List String) :=
  ⟨by decide, by decide⟩

/-- C2 (amended): the `requires` parser splits on commas and, per element,
strips leading open-bracket characters, trailing close-bracket
characters, surrounding whitespace and every single quote; the two
nonempty examples parse as the claim says, while the empty bracket pair
parses to one empty string, and no input parses to the empty sequence. -/
theorem requires_parsing_amended :
    parseRequires "['a/1.0', 'b/2.0']" = ["a/1.0", "b/2.0"]
    ∧ parseRequires "['x']" = ["x"]
    ∧ parseRequires "[]" = [""]
    ∧ ∀ s : String, 1 ≤ (parseRequires s).length := by
  refine ⟨by decide, by decide, by decide, ?_⟩
  intro s
  have hne := splitOnChar_ne_nil ',' s.data
  rcases hsp : splitOnChar ',' s.data with _ | ⟨a, t⟩
  · exact absurd hsp hne
  · unfold parseRequires
    rw [hsp]
    simp

/-- C7: with no override the resolved output is
reference/build/docs/name_version, and with an override it is the
override verbatim, independent of name and version. -/
theorem resolve_output_spec :
    (∀ srcPkg name version : String,
      resolve_output none srcPkg name version =
        .ok (srcPkg ++ "/build/docs/" ++ name ++ "_" ++ version))
    ∧ resolve_output none "pkg" "foo" "1.2" = .ok "pkg/build/docs/foo_1.2"
    ∧ ∀ o srcPkg name version : String,
        resolve_output (some (some o)) srcPkg name version = .ok o :=
  ⟨fun _ _ _ => rfl, rfl, fun _ _ _ _ => rfl⟩

/-- C10: when the positional package path is not valid UTF-8, `main` skips
its whole body: no stage event is emitted and the result is success. -/
theorem non_utf8_src_skips_pipeline (env : Env) (h : env.src = none) :
    runMain env = ([], .ok ()) := by
  unfold runMain
  rw [h]

/-- Witness for C10 at a concrete environment. -/
theorem non_utf8_src_skips_pipeline_witness :
    runMain { envBase with src := none } = ([], .ok ()) :=
  non_utf8_src_skips_pipeline { envBase with src := none } rfl

/-- Characterization of `gather_sources_pure` through `lastPiece`: the
split has a last piece (the split is never empty), and the result is
determined by parsing that piece. -/
theorem gather_sources_pure_eq (out ref : String) :
    gather_sources_pure out ref =
      match from_str_vec (lastPiece out) with
      | none => .error "serde_json parse error"
      | some arr => .ok (extractFolders arr ++ [ref ++ "/sources"]) := by
  unfold gather_sources_pure lastPiece
  rcases hl : (splitOnChar (Char.ofNat 0x0A) out.data).getLast? with _ | lp
  · exact absurd (List.getLast?_eq_none_iff.mp hl) (splitOnChar_ne_nil _ _)
  · rfl

/-- C5: every successful source gathering ends in the synthesized
reference/sources entry (hence is nonempty) and consists of the
package_folder string fields of the parsed array in order; the claim's
concrete array yields exactly the claimed sequence. -/
theorem gather_sources_shape :
    (∀ out ref rs, gather_sources_pure out ref = .ok rs →
      rs ≠ []
      ∧ rs.getLast? = some (ref ++ "/sources")
      ∧ ∃ arr, from_str_vec (lastPiece out) = some arr
          ∧ rs = extractFolders arr ++ [ref ++ "/sources"])
    ∧ gather_sources_pure
        "[\x7b\"package_folder\":\"/p/a\"\x7d,\x7b\"other\":1\x7d,\x7b\"package_folder\":\"/p/b\"\x7d]"
        "pkg" = .ok ["/p/a", "/p/b", "pkg/sources"] := by
  constructor
  · intro out ref rs h
    rw [gather_sources_pure_eq] at h
    split at h
    · cases h
    · next arr hf =>
      injection h with h
      subst h
      refine ⟨by simp, ?_, arr, hf, rfl⟩
      rw [List.getLast?_append_cons]
      rfl
  · rfl

/-- Witness for C5 at the claim's concrete array. -/
theorem gather_sources_shape_witness :
    (["/p/a", "/p/b", "pkg/sources"] : List String) ≠ []
    ∧ (["/p/a", "/p/b", "pkg/sources"] : List String).getLast? =
        some ("pkg" ++ "/sources")
    ∧ ∃ arr, from_str_vec (lastPiece
          "[\x7b\"package_folder\":\"/p/a\"\x7d,\x7b\"other\":1\x7d,\x7b\"package_folder\":\"/p/b\"\x7d]")
          = some arr
        ∧ ["/p/a", "/p/b", "pkg/sources"] =
            extractFolders arr ++ ["pkg" ++ "/sources"] :=
  gather_sources_shape.1
    "[\x7b\"package_folder\":\"/p/a\"\x7d,\x7b\"other\":1\x7d,\x7b\"package_folder\":\"/p/b\"\x7d]"
    "pkg" ["/p/a", "/p/b", "pkg/sources"] gather_sources_shape.2

/-- C3 counterexample: the output of two empty brackets followed by a line
feed has last non-empty line a valid JSON array, yet the locator fails,
because the code takes the last split piece (here the empty string), not
the last non-empty line. -/
theorem last_nonempty_line_counterexample :
    specLastNonEmptyLine "[]\n" = some "[]"
    ∧ (from_str_vec "[]").isSome = true
    ∧ gather_sources_pure "[]\n" "pkg" = .error "serde_json parse error" :=
  ⟨by decide, by decide, rfl⟩

/-- C3 (amended): the locator splits the raw output on line feeds and
selects the LAST piece, empty when the output ends in a newline; parsing
succeeds exactly when that piece is a valid JSON array, so an output
with a trailing newline always fails regardless of its earlier lines. -/
theorem gather_last_piece_amended (out ref : String) :
    (∀ arr, from_str_vec (lastPiece out) = some arr →
      gather_sources_pure out ref =
        .ok (extractFolders arr ++ [ref ++ "/sources"]))
    ∧ (from_str_vec (lastPiece out) = none →
      gather_sources_pure out ref = .error "serde_json parse error")
    ∧ ∀ l : List Char, out = String.mk (l ++ [Char.ofNat 0x0A]) →
        gather_sources_pure out ref = .error "serde_json parse error" := by
  refine ⟨?_, ?_, ?_⟩
  · intro arr hf
    rw [gather_sources_pure_eq, hf]
  · intro hf
    rw [gather_sources_pure_eq, hf]
  · intro l hEq
    subst hEq
    unfold gather_sources_pure
    rw [show (String.mk (l ++ [Char.ofNat 0x0A])).data =
          l ++ [Char.ofNat 0x0A] from rfl,
        splitOnChar_append_sep, List.getLast?_append_cons]
    rfl

/-- Witness for C3 (amended): a diagnostic line before the JSON parses,
and a trailing newline makes the locator fail. -/
theorem gather_last_piece_amended_witness :
    gather_sources_pure "diag\n[]" "pkg" =
      .ok (extractFolders [] ++ ["pkg" ++ "/sources"])
    ∧ gather_sources_pure "[]\n" "pkg" = .error "serde_json parse error" :=
  ⟨(gather_last_piece_amended "diag\n[]" "pkg").1 [] (by rfl),
   (gather_last_piece_amended "[]\n" "pkg").2.2 ['[', ']'] (by decide)⟩

/-- C4: the install stage succeeds for every exit status of the launched
installer (the exit code is discarded), a launch failure is the only
error, and whenever inspect succeeded and the installer launched, the
pipeline goes on to run the locate stage, whatever the exit code was. -/
theorem install_exit_ignored :
    (∀ code : Int, conan_install (.ok code) = .ok ())
    ∧ (∀ e : String, conan_install (.error e) = .error e)
    ∧ ∀ (env : Env) (srcPkg : String) (r : String × String × String)
        (code : Int), env.src = some srcPkg → env.inspectRaw = .ok r →
        env.installLaunch = .ok code →
        Event.ranLocate ∈ (runMain env).1 := by
  refine ⟨fun _ => rfl, fun _ => rfl, ?_⟩
  intro env srcPkg r code h1 h2 h3
  obtain ⟨nameRaw, versionRaw, requiresRaw⟩ := r
  unfold runMain
  rw [h1, h2, h3]
  simp only [conan_install]
  repeat' split
  all_goals simp

/-- Witness for C4: exit code 7 of the installer still reaches locate. -/
theorem install_exit_ignored_witness :
    conan_install (.ok 7) = .ok ()
    ∧ Event.ranLocate ∈
        (runMain { envBase with installLaunch := .ok 7 }).1 :=
  ⟨install_exit_ignored.1 7,
   install_exit_ignored.2.2 { envBase with installLaunch := .ok 7 } "pkg"
     ("foo", "1.2", "[]") 7 rfl rfl rfl⟩

/-- C6: when every stage up to rendering succeeded and the generator exits
with failure, the run terminates with the doxygen-on-PATH message, and
no viewer open is attempted and no canonicalization happens, whatever
the open flag says. -/
theorem generator_failure_aborts (env : Env) (srcPkg : String)
    (r : String × String × String) (code : Int) (io df : String)
    (h1 : env.src = some srcPkg) (h2 : env.inspectRaw = .ok r)
    (h3 : env.installLaunch = .ok code) (h4 : env.infoOutput = .ok io)
    (h5 : exOk (gather_sources_pure io srcPkg) = true)
    (h6 : env.outArg ≠ some none) (h7 : env.renderRes = .ok df)
    (h8 : env.doxygenSuccess = false) :
    (runMain env).2 = .error
      "Failed to generate docs. Please ensure doxygen is available in PATH."
    ∧ openAttempted (runMain env).1 = false
    ∧ ∀ p, Event.canonicalized p ∉ (runMain env).1 := by
  obtain ⟨nameRaw, versionRaw, requiresRaw⟩ := r
  unfold runMain
  rw [h1, h2, h3, h4, h8]
  simp only [conan_install, Except.bind, inspect]
  rcases hg : gather_sources_pure io srcPkg with ge | gs
  · rw [hg] at h5
    cases h5
  · rcases houtarg : env.outArg with _ | onn
    · rw [h7]
      simp [resolve_output, openAttempted]
    · rcases onn with _ | o
      · exact absurd houtarg h6
      · rw [h7]
        simp [resolve_output, openAttempted]

/-- Witness for C6 at a concrete environment with the open flag set. -/
theorem generator_failure_aborts_witness :
    (runMain { envBase with doxygenSuccess := false, openFlag := true }).2 =
      .error "Failed to generate docs. Please ensure doxygen is available in PATH."
    ∧ openAttempted
        (runMain { envBase with doxygenSuccess := false, openFlag := true }).1 =
        false
    ∧ ∀ p, Event.canonicalized p ∉
        (runMain { envBase with doxygenSuccess := false, openFlag := true }).1 :=
  generator_failure_aborts _ "pkg" ("foo", "1.2", "[]") 0 "[]"
    "pkg/build/docs/foo_1.2/.doxy/DoxyFile" rfl rfl rfl rfl rfl
    (by decide) rfl rfl

/-- C9: when the pipeline succeeded up to canonicalization and the open
flag is set, a viewer failure only adds a warning event; the run still
returns success. -/
theorem open_failure_is_warning (env : Env) (srcPkg : String)
    (r : String × String × String) (code : Int)
    (io df output_str html err : String)
    (h1 : env.src = some srcPkg) (h2 : env.inspectRaw = .ok r)
    (h3 : env.installLaunch = .ok code) (h4 : env.infoOutput = .ok io)
    (h5 : exOk (gather_sources_pure io srcPkg) = true)
    (h6 : resolve_output env.outArg srcPkg r.1 r.2.1 = .ok output_str)
    (h7 : env.renderRes = .ok df) (h8 : env.doxygenSuccess = true)
    (h9 : env.canonicalize (output_str ++ "/html/index.html") = .ok html)
    (h10 : env.openFlag = true) (h11 : env.openRes = .error err) :
    (runMain env).2 = .ok ()
    ∧ Event.openWarn html err ∈ (runMain env).1 := by
  obtain ⟨nameRaw, versionRaw, requiresRaw⟩ := r
  unfold runMain
  rw [h1, h2, h3, h4, h8, h10, h11]
  simp only [conan_install, Except.bind, inspect]
  rcases hg : gather_sources_pure io srcPkg with ge | gs
  · rw [hg] at h5
    cases h5
  · rw [h6, h7]
    simp [h9]

/-- Witness for C9 at a concrete environment with a failing viewer. -/
theorem open_failure_is_warning_witness :
    (runMain { envBase with openFlag := true, openRes := .error "boom" }).2 =
      .ok ()
    ∧ Event.openWarn ("pkg/build/docs/foo_1.2" ++ "/html/index.html") "boom" ∈
        (runMain { envBase with openFlag := true, openRes := .error "boom" }).1 :=
  open_failure_is_warning _ "pkg" ("foo", "1.2", "[]") 0 "[]"
    "pkg/build/docs/foo_1.2/.doxy/DoxyFile" "pkg/build/docs/foo_1.2"
    ("pkg/build/docs/foo_1.2" ++ "/html/index.html") "boom"
    rfl rfl rfl rfl rfl rfl rfl rfl rfl rfl rfl

/-- C8: the entry path reference/html/index.html under the resolved output
is canonicalized when and only when the generator reported success; a
canonicalization failure propagates as the run's error, and on success
the reported path is exactly the canonicalized value. -/
theorem canonicalize_when_and_only_when :
    (∀ (env : Env) (p : String),
      Event.canonicalized p ∈ (runMain env).1 → env.doxygenSuccess = true)
    ∧ ∀ (env : Env) (srcPkg : String) (r : String × String × String)
        (code : Int) (io df output_str : String),
        env.src = some srcPkg → env.inspectRaw = .ok r →
        env.installLaunch = .ok code → env.infoOutput = .ok io →
        exOk (gather_sources_pure io srcPkg) = true →
        resolve_output env.outArg srcPkg r.1 r.2.1 = .ok output_str →
        env.renderRes = .ok df → env.doxygenSuccess = true →
        Event.canonicalized (output_str ++ "/html/index.html") ∈
          (runMain env).1
        ∧ (∀ e, env.canonicalize (output_str ++ "/html/index.html") =
              .error e → (runMain env).2 = .error e)
        ∧ ∀ html, env.canonicalize (output_str ++ "/html/index.html") =
              .ok html →
            (runMain env).2 = .ok ()
            ∧ Event.printedSuccess html ∈ (runMain env).1 := by
  constructor
  · intro env p h
    obtain ⟨src, outArg, openFlag, inspectRaw, installLaunch, infoOutput,
      renderRes, doxySucc, canon, openRes⟩ := env
    show doxySucc = true
    rcases src with _ | srcPkg
    · simp [runMain] at h
    rcases inspectRaw with e | ⟨nameRaw, versionRaw, requiresRaw⟩
    · simp [runMain] at h
    rcases installLaunch with e | code
    · simp [runMain, conan_install] at h
    rcases infoOutput with e | io
    · simp [runMain, conan_install, Except.bind] at h
    rcases hg : gather_sources_pure io srcPkg with ge | gs
    · simp [runMain, conan_install, Except.bind, hg] at h
    cases doxySucc
    case true => rfl
    case false =>
      exfalso
      rcases outArg with _ | (_ | o) <;>
        rcases renderRes with e | df <;>
          simp [runMain, conan_install, Except.bind, hg, resolve_output] at h
  · intro env srcPkg r code io df output_str h1 h2 h3 h4 h5 h6 h7 h8
    obtain ⟨nameRaw, versionRaw, requiresRaw⟩ := r
    unfold runMain
    rw [h1, h2, h3, h4, h8]
    simp only [conan_install, Except.bind, inspect]
    rcases hg : gather_sources_pure io srcPkg with ge | gs
    · rw [hg] at h5
      cases h5
    · rw [h6, h7]
      refine ⟨?_, ?_, ?_⟩
      · rcases hc : env.canonicalize (output_str ++ "/html/index.html")
          with e | html
        · simp [hc]
        · rcases hof : env.openFlag with _ | _ <;>
            rcases hor : env.openRes with e | u <;>
              simp [hc, hof, hor]
      · intro e hc
        simp [hc]
      · intro html hc
        rcases hof : env.openFlag with _ | _ <;>
          rcases hor : env.openRes with e | u <;>
            simp [hc, hof, hor]

/-- Witness for C8 at a concrete all-success environment. -/
theorem canonicalize_when_and_only_when_witness :
    Event.canonicalized ("pkg/build/docs/foo_1.2" ++ "/html/index.html") ∈
      (runMain envBase).1
    ∧ (runMain envBase).2 = .ok ()
    ∧ Event.printedSuccess ("pkg/build/docs/foo_1.2" ++ "/html/index.html") ∈
        (runMain envBase).1 :=
  ⟨(canonicalize_when_and_only_when.2 envBase "pkg" ("foo", "1.2", "[]") 0
      "[]" "pkg/build/docs/foo_1.2/.doxy/DoxyFile" "pkg/build/docs/foo_1.2"
      rfl rfl rfl rfl rfl rfl rfl rfl).1,
   (canonicalize_when_and_only_when.2 envBase "pkg" ("foo", "1.2", "[]") 0
      "[]" "pkg/build/docs/foo_1.2/.doxy/DoxyFile" "pkg/build/docs/foo_1.2"
      rfl rfl rfl rfl rfl rfl rfl rfl).2.2
     ("pkg/build/docs/foo_1.2" ++ "/html/index.html") rfl⟩

/-- C1: when the source path is not text no stage runs at all; otherwise
the stage events of the run are exactly the fixed order Inspect,
Install, Locate, Resolve, Render, Generate cut at the first failing
stage, so an error at any stage prevents every later stage from
running, and a viewer-open attempt happens only when all six stages
succeeded and the open flag was set. -/
theorem pipeline_stage_order :
    (∀ env : Env, env.src = none →
      stageTrace (runMain env).1 = stageFullOrder.take 0)
    ∧ ∀ (env : Env) (srcPkg : String), env.src = some srcPkg →
        stageTrace (runMain env).1 =
          stageFullOrder.take (stageCount env srcPkg)
        ∧ (openAttempted (runMain env).1 = true →
            stageCount env srcPkg = 6 ∧ env.doxygenSuccess = true
            ∧ env.openFlag = true) := by
  constructor
  · intro env h
    unfold runMain
    rw [h]
    rfl
  · intro env srcPkg h
    obtain ⟨src, outArg, openFlag, inspectRaw, installLaunch, infoOutput,
      renderRes, doxySucc, canon, openRes⟩ := env
    replace h : src = some srcPkg := h
    subst h
    rcases inspectRaw with e | ⟨nameRaw, versionRaw, requiresRaw⟩
    · exact ⟨rfl, fun hOpen => Bool.noConfusion hOpen⟩
    rcases installLaunch with e | code
    · exact ⟨rfl, fun hOpen => Bool.noConfusion hOpen⟩
    rcases infoOutput with e | io
    · exact ⟨rfl, fun hOpen => Bool.noConfusion hOpen⟩
    rcases hg : gather_sources_pure io srcPkg with ge | gs <;>
      rcases outArg with _ | (_ | o) <;>
        rcases renderRes with e | df <;>
          cases doxySucc <;>
            refine ⟨?_, ?_⟩ <;>
              (simp only [runMain, conan_install, Except.bind, inspect, hg,
                 resolve_output]
               repeat' split
               all_goals simp_all [stageCount, locateOk, resolveOk, exOk,
                 stageTrace, stageFullOrder, isStageEvent, openAttempted,
                 Except.bind])

/-- Witness for C1 at a concrete all-success environment. -/
theorem pipeline_stage_order_witness :
    stageTrace (runMain envBase).1 =
      stageFullOrder.take (stageCount envBase "pkg") :=
  (pipeline_stage_order.2 envBase "pkg" rfl).1

end ConanDoxygen
